import Mathlib

/-!
Shallow embedding of `src/interview/weather.py` (`process_events`).

The Python generator keeps a `defaultdict` from station name to a
`{"high": -inf, "low": inf}` record plus a `latest_timestamp` cursor, and
folds a list of event dictionaries into a lazy stream of output
dictionaries, raising `ValueError` on malformed input.

Modelling choices:
* temperatures are rationals (ℚ); the ±infinity sentinels of the Python
  record become `Option ℚ` fields (`none` plays the role of the sentinel:
  any finite temperature compares past it, exactly as any float compares
  past ±inf);
* the Python dict is an insertion-ordered association list; `upsert`
  replaces an existing key in place and appends a new key at the end,
  which is Python dict semantics;
* an input dictionary is a tagged variant: a `sample` carries the three
  `.get`-ed fields as `Option`s (absent or null becomes `none`), a
  `control` carries its `.get`-ed command, and every other shape is
  `unknown`;
* the generator becomes `processFrom`, which returns the outputs yielded
  so far, the state at the point processing stopped, and the error
  message if a `ValueError` was raised (`none` when the whole list was
  consumed).
-/

namespace Weather

/-- Per-station record: the Python `{"high": ..., "low": ...}` dict, with
`none` standing for the `float('-inf')` / `float('inf')` sentinels. -/
structure StationData where
  high : Option ℚ
  low : Option ℚ
deriving DecidableEq, Repr

/-- An input dictionary, as seen through the `.get` calls of the source:
`sample` fields may be absent (`none`), a `control` may lack its command,
and any other top-level `type` is `unknown`. -/
inductive InputEvent where
  | sample (stationName : Option String) (timestamp : Option Int) (temperature : Option ℚ)
  | control (command : Option String)
  | unknown
deriving DecidableEq, Repr

/-- An output dictionary: a snapshot (asOf plus the station list in
iteration order, each with high and low) or a reset (asOf only). -/
inductive OutputEvent where
  | snapshot (asOf : Int) (stations : List (String × ℚ × ℚ))
  | reset (asOf : Int)
deriving DecidableEq, Repr

/-- The generator's local state: `weather_data` and `latest_timestamp`. -/
structure AggState where
  weather_data : List (String × StationData)
  latest_timestamp : Option Int
deriving DecidableEq, Repr

/-- State at the top of the generator: empty dict, `latest_timestamp = None`. -/
def initState : AggState := ⟨[], none⟩

/-- Association-list lookup (Python dict read). -/
def lookupStation : List (String × StationData) → String → Option StationData
  | [], _ => none
  | (k, d) :: rest, n => if k = n then some d else lookupStation rest n

/-- Python dict write: replace in place when the key exists, else append
(insertion order preserved). -/
def upsert : List (String × StationData) → String → StationData → List (String × StationData)
  | [], n, d => [(n, d)]
  | (k, d0) :: rest, n, d => if k = n then (n, d) :: rest else (k, d0) :: upsert rest n d

/-- `if temperature > station_data["high"]: station_data["high"] = temperature`,
with `none` as the `-inf` sentinel (any temperature beats it). -/
def updHigh (high : Option ℚ) (t : ℚ) : Option ℚ :=
  match high with
  | none => some t
  | some h => if t > h then some t else some h

/-- `if temperature < station_data["low"]: station_data["low"] = temperature`,
with `none` as the `+inf` sentinel. -/
def updLow (low : Option ℚ) (t : ℚ) : Option ℚ :=
  match low with
  | none => some t
  | some l => if t < l then some t else some l

/-- The snapshot loop over `weather_data.items()`: keep the stations whose
high is not `-inf` and whose low is not `inf`, in iteration order. -/
def snapStations (wd : List (String × StationData)) : List (String × ℚ × ℚ) :=
  wd.filterMap fun p =>
    match p.2.high, p.2.low with
    | some h, some l => some (p.1, h, l)
    | _, _ => none

/-- One iteration of the `for event in events` loop: either a raised
`ValueError` message, or the updated state together with the output
yielded for this event (if any). -/
def step (s : AggState) (e : InputEvent) : Except String (AggState × Option OutputEvent) :=
  match e with
  | .sample stationName timestamp temperature =>
    match stationName, timestamp, temperature with
    | some sn, some ts, some temp =>
      let latest : Option Int :=
        match s.latest_timestamp with
        | none => some ts
        | some lt => if ts > lt then some ts else some lt
      let old := (lookupStation s.weather_data sn).getD ⟨none, none⟩
      .ok (⟨upsert s.weather_data sn ⟨updHigh old.high temp, updLow old.low temp⟩, latest⟩, none)
    | _, _, _ => .error "Please verify input. Weather sample missing required fields."
  | .control command =>
    if command = some "snapshot" then
      match s.latest_timestamp with
      | some lt =>
        match s.weather_data with
        | [] => .ok (s, none)
        | _ :: _ =>
          match snapStations s.weather_data with
          | [] => .ok (s, none)
          | st0 :: strest => .ok (s, some (.snapshot lt (st0 :: strest)))
      | none => .ok (s, none)
    else if command = some "reset" then
      match s.latest_timestamp with
      | some lt => .ok (⟨[], s.latest_timestamp⟩, some (.reset lt))
      | none => .ok (⟨[], s.latest_timestamp⟩, none)
    else .error "Please verify input. Unknown control command."
  | .unknown => .error "Please verify input. Unknown message type."

/-- Run the loop from state `s`: outputs yielded (in order), the state at
the point the loop stopped, and the `ValueError` message if one was
raised before the list was exhausted. -/
def processFrom (s : AggState) : List InputEvent → List OutputEvent × AggState × Option String
  | [] => ([], s, none)
  | e :: rest =>
    match step s e with
    | .error msg => ([], s, some msg)
    | .ok (s1, out) =>
      let r := processFrom s1 rest
      (out.toList ++ r.1, r.2.1, r.2.2)

/-- `process_events`: run the generator from its initial state. -/
def process_events (events : List InputEvent) : List OutputEvent × AggState × Option String :=
  processFrom initState events

/-- Outputs the consumer received. -/
def outputsOf (events : List InputEvent) : List OutputEvent :=
  (process_events events).1

/-- State when processing stopped (after the last event, or at the raise). -/
def stateAfter (events : List InputEvent) : AggState :=
  (process_events events).2.1

/-- The raised `ValueError` message, if any. -/
def errOf (events : List InputEvent) : Option String :=
  (process_events events).2.2

/-! Definitions used only to state the claims. -/

/-- A well-formed sample event: all three `.get`-ed fields present. -/
def isValidSample : InputEvent → Bool
  | .sample (some _) (some _) (some _) => true
  | _ => false

/-- The temperatures submitted for station `n`, in arrival order. -/
def tempsFor (events : List InputEvent) (n : String) : List ℚ :=
  events.filterMap fun e =>
    match e with
    | .sample (some sn) _ (some t) => if sn = n then some t else none
    | _ => none

/-- The timestamps carried by the sample events, in arrival order. -/
def sampleTs (events : List InputEvent) : List Int :=
  events.filterMap fun e =>
    match e with
    | .sample _ (some ts) _ => some ts
    | _ => none

/-- Maximum of a list, `none` on the empty list. -/
def listMax {α : Type} [LinearOrder α] : List α → Option α
  | [] => none
  | t :: ts => some (ts.foldl max t)

/-- Minimum of a list, `none` on the empty list. -/
def listMin {α : Type} [LinearOrder α] : List α → Option α
  | [] => none
  | t :: ts => some (ts.foldl min t)

/-- The `asOf` field of an output record. -/
def asOfOf : OutputEvent → Int
  | .snapshot t _ => t
  | .reset t => t

/-- The events on which the source raises `ValueError`: a sample with a
missing field, a control with an unknown command, an unknown type.
Badness depends only on the event, never on the state. -/
def isBad : InputEvent → Bool
  | .sample sn ts t => sn.isNone || ts.isNone || t.isNone
  | .control c =>
    if c = some "snapshot" then false else if c = some "reset" then false else true
  | .unknown => true

/-- The `ValueError` message each bad event raises. -/
def errMsgOf : InputEvent → String
  | .sample _ _ _ => "Please verify input. Weather sample missing required fields."
  | .control _ => "Please verify input. Unknown control command."
  | .unknown => "Please verify input. Unknown message type."

/-- Replay a list of temperatures into a station entry (the per-station
effect of a run of samples for that station). -/
def applyTemps : Option StationData → List ℚ → Option StationData
  | d, [] => d
  | d, t :: ts =>
    let old := d.getD ⟨none, none⟩
    applyTemps (some ⟨updHigh old.high t, updLow old.low t⟩) ts

/-- Replay a list of timestamps into the `latest_timestamp` cursor. -/
def combineTs : Option Int → List Int → Option Int
  | lt, [] => lt
  | lt, ts :: rest =>
    combineTs (match lt with
      | none => some ts
      | some l => if ts > l then some ts else some l) rest

/-- Invariant on the station map: every stored entry was initialized by a
sample, so both fields are set and `low ≤ high`. -/
def wdInv (wd : List (String × StationData)) : Prop :=
  ∀ p ∈ wd, ∃ h l, p.2.high = some h ∧ p.2.low = some l ∧ l ≤ h

/-! Helper lemmas. -/

lemma updHigh_some (h t : ℚ) : updHigh (some h) t = some (max h t) := by
  show (if t > h then some t else some h) = some (max h t)
  split_ifs with hh
  · rw [max_eq_right hh.le]
  · rw [max_eq_left (not_lt.mp hh)]

lemma updLow_some (l t : ℚ) : updLow (some l) t = some (min l t) := by
  show (if t < l then some t else some l) = some (min l t)
  split_ifs with hh
  · rw [min_eq_right hh.le]
  · rw [min_eq_left (not_lt.mp hh)]

/-- The snapshot branch never changes the state. -/
lemma step_snapshot_eq (s : AggState) :
    ∃ out, step s (.control (some "snapshot")) = .ok (s, out) := by
  obtain ⟨wd, lt⟩ := s
  cases lt with
  | none => exact ⟨none, rfl⟩
  | some lt0 =>
    cases wd with
    | nil => exact ⟨none, rfl⟩
    | cons a l =>
      cases hs : snapStations (a :: l) with
      | nil => exact ⟨none, by simp [step, hs]⟩
      | cons x xs => exact ⟨some (.snapshot lt0 (x :: xs)), by simp [step, hs]⟩

/-! Claim theorems. -/

/-- Claim C5: a reset always clears the station map back to empty, leaves
`latest_timestamp` unchanged, and modifies nothing else of the state; the
output is a Reset record exactly when a timestamp is known. -/
theorem C5_reset_clears_preserves_timestamp (s : AggState) :
    step s (.control (some "reset")) =
      .ok (⟨[], s.latest_timestamp⟩, Option.map OutputEvent.reset s.latest_timestamp) := by
  obtain ⟨wd, lt⟩ := s
  cases lt <;> rfl

/-- Claim C6: a snapshot whose resulting station map would be empty yields
no output (and leaves the state alone); in particular a snapshot right
after a reset, with no intervening samples, yields no output even though
`latest_timestamp` is preserved. -/
theorem C6_empty_snapshot_suppressed (s : AggState) :
    (snapStations s.weather_data = [] →
      step s (.control (some "snapshot")) = .ok (s, none))
    ∧ (∀ s1 out1, step s (.control (some "reset")) = .ok (s1, out1) →
        step s1 (.control (some "snapshot")) = .ok (s1, none)
        ∧ s1.latest_timestamp = s.latest_timestamp) := by
  obtain ⟨wd, lt⟩ := s
  constructor
  · intro h
    cases lt with
    | none => rfl
    | some lt0 =>
      cases wd with
      | nil => rfl
      | cons a l => simp [step, h]
  · intro s1 out1 hstep
    cases lt with
    | none =>
      simp [step] at hstep
      obtain ⟨h1, h2⟩ := hstep
      subst h1
      exact ⟨rfl, rfl⟩
    | some lt0 =>
      simp [step] at hstep
      obtain ⟨h1, h2⟩ := hstep
      subst h1
      exact ⟨rfl, rfl⟩

/-- Claim C6, witnessed on a concrete state. -/
theorem C6_empty_snapshot_suppressed_witness :
    step ⟨[], some 7⟩ (.control (some "snapshot")) = .ok (⟨[], some 7⟩, none)
    ∧ (step ⟨[], some 7⟩ (.control (some "snapshot")) = .ok (⟨[], some 7⟩, none)
        ∧ AggState.latest_timestamp ⟨[], some 7⟩ =
          AggState.latest_timestamp ⟨[("A", ⟨some 1, some 1⟩)], some 7⟩) :=
  ⟨(C6_empty_snapshot_suppressed ⟨[], some 7⟩).1 rfl,
   (C6_empty_snapshot_suppressed ⟨[("A", ⟨some 1, some 1⟩)], some 7⟩).2
     ⟨[], some 7⟩ (some (.reset 7)) rfl⟩

/-- Claim C7: a snapshot or reset processed while `latest_timestamp` is
still unset (no sample ever processed) produces no output. -/
theorem C7_no_output_before_first_sample (s : AggState)
    (h : s.latest_timestamp = none) :
    step s (.control (some "snapshot")) = .ok (s, none)
    ∧ step s (.control (some "reset")) = .ok (⟨[], none⟩, none) := by
  obtain ⟨wd, lt⟩ := s
  cases h
  exact ⟨rfl, rfl⟩

/-- Claim C7, witnessed on the initial state. -/
theorem C7_no_output_before_first_sample_witness :
    step ⟨[], none⟩ (.control (some "snapshot")) = .ok (⟨[], none⟩, none)
    ∧ step ⟨[], none⟩ (.control (some "reset")) = .ok (⟨[], none⟩, none) :=
  C7_no_output_before_first_sample ⟨[], none⟩ rfl

/-- Claim C8: a snapshot never mutates the state, so two consecutive
snapshot commands yield two identical outputs (both the same Snapshot
record, or both suppressed). -/
theorem C8_snapshot_idempotent (s : AggState) :
    ∃ out : Option OutputEvent,
      step s (.control (some "snapshot")) = .ok (s, out)
      ∧ processFrom s [.control (some "snapshot"), .control (some "snapshot")] =
          (out.toList ++ out.toList, s, none) := by
  obtain ⟨out, h⟩ := step_snapshot_eq s
  exact ⟨out, h, by simp [processFrom, h]⟩

lemma processFrom_append_ok (ys : List InputEvent) :
    ∀ (xs : List InputEvent) (s : AggState), (processFrom s xs).2.2 = none →
      processFrom s (xs ++ ys) =
        ((processFrom s xs).1 ++ (processFrom (processFrom s xs).2.1 ys).1,
         (processFrom (processFrom s xs).2.1 ys).2) := by
  intro xs
  induction xs with
  | nil => intro s _; simp [processFrom]
  | cons e rest ih =>
    intro s h
    cases hstep : step s e with
    | error m => simp [processFrom, hstep] at h
    | ok p =>
      obtain ⟨s1, out⟩ := p
      simp only [processFrom, hstep, List.append_eq] at h ⊢
      rw [ih s1 h]
      simp [List.append_assoc]

lemma processFrom_append_err (ys : List InputEvent) :
    ∀ (xs : List InputEvent) (s : AggState) (m : String),
      (processFrom s xs).2.2 = some m →
      processFrom s (xs ++ ys) = processFrom s xs := by
  intro xs
  induction xs with
  | nil => intro s m h; simp [processFrom] at h
  | cons e rest ih =>
    intro s m h
    cases hstep : step s e with
    | error m0 => simp [processFrom, hstep]
    | ok p =>
      obtain ⟨s1, out⟩ := p
      simp only [processFrom, hstep, List.append_eq] at h ⊢
      rw [ih s1 m h]

/-- A bad event raises its `ValueError` regardless of the state. -/
lemma step_bad (e : InputEvent) (h : isBad e = true) (s : AggState) :
    step s e = .error (errMsgOf e) := by
  cases e with
  | sample sn ts t =>
    cases sn <;> cases ts <;> cases t <;> first | rfl | simp [isBad] at h
  | control c =>
    by_cases h1 : c = some "snapshot"
    · simp [isBad, h1] at h
    · by_cases h2 : c = some "reset"
      · simp [isBad, h1, h2] at h
      · simp [step, h1, h2, errMsgOf]
  | unknown => rfl

/-- A good event never raises. -/
lemma step_good (e : InputEvent) (h : isBad e = false) (s : AggState) :
    ∃ s1 out, step s e = .ok (s1, out) := by
  cases e with
  | sample sn ts t =>
    cases sn <;> cases ts <;> cases t <;> first | exact ⟨_, _, rfl⟩ | simp [isBad] at h
  | control c =>
    by_cases h1 : c = some "snapshot"
    · subst h1
      obtain ⟨out, hout⟩ := step_snapshot_eq s
      exact ⟨s, out, hout⟩
    · by_cases h2 : c = some "reset"
      · subst h2
        obtain ⟨wd, lt⟩ := s
        cases lt <;> exact ⟨_, _, rfl⟩
      · simp [isBad, h1, h2] at h
  | unknown => simp [isBad] at h

lemma processFrom_err_eq (events : List InputEvent) :
    ∀ s : AggState, (processFrom s events).2.2 = (events.find? isBad).map errMsgOf := by
  induction events with
  | nil => intro s; rfl
  | cons e rest ih =>
    intro s
    cases hb : isBad e with
    | true => simp [processFrom, step_bad e hb s, List.find?, hb]
    | false =>
      obtain ⟨s1, out, hstep⟩ := step_good e hb s
      simp [processFrom, hstep, List.find?, hb, ih]

lemma processFrom_outputs_takeWhile (events : List InputEvent) :
    ∀ s : AggState,
      (processFrom s events).1 =
        (processFrom s (events.takeWhile fun e => !isBad e)).1 := by
  induction events with
  | nil => intro s; rfl
  | cons e rest ih =>
    intro s
    cases hb : isBad e with
    | true => simp [processFrom, step_bad e hb s, List.takeWhile_cons, hb]
    | false =>
      obtain ⟨s1, out, hstep⟩ := step_good e hb s
      simp [processFrom, hstep, List.takeWhile_cons, hb, ih]

/-- Claim C3: processing raises `ValueError` exactly when the input holds a
bad event (a sample with a missing field, a control with an unknown
command, or an unknown event type), the message being that of the first
bad event (fail-fast); and the outputs delivered are exactly those of the
longest good prefix, so the failing event yields nothing and prior
outputs stand. -/
theorem C3_invalid_input_fail_fast (events : List InputEvent) :
    errOf events = (events.find? isBad).map errMsgOf
    ∧ outputsOf events = outputsOf (events.takeWhile fun e => !isBad e) :=
  ⟨processFrom_err_eq events initState, processFrom_outputs_takeWhile events initState⟩

/-- Claim C9: every output already emitted for a prefix of the input is
unchanged by any extension of the sequence — the prefix's outputs are an
initial segment of the extended run's outputs. -/
theorem C9_prior_outputs_stable (xs ys : List InputEvent) :
    ∃ rest, outputsOf (xs ++ ys) = outputsOf xs ++ rest := by
  unfold outputsOf process_events
  cases h : (processFrom initState xs).2.2 with
  | none => exact ⟨_, by rw [processFrom_append_ok ys xs initState h]⟩
  | some m =>
    exact ⟨[], by rw [processFrom_append_err ys xs initState m h, List.append_nil]⟩

/-- Claim C10: a sample rejected for a missing field leaves the state
exactly as it was before that event — the timestamp cursor and the
station map are untouched, the previous outputs stand, and the
`ValueError` is raised. -/
theorem C10_failed_sample_no_mutation (p : List InputEvent)
    (sn : Option String) (ts : Option Int) (tp : Option ℚ)
    (hok : errOf p = none) (hbad : sn = none ∨ ts = none ∨ tp = none) :
    process_events (p ++ [.sample sn ts tp]) =
      ((process_events p).1, (process_events p).2.1,
       some "Please verify input. Weather sample missing required fields.") := by
  have hb : isBad (.sample sn ts tp) = true := by
    rcases hbad with rfl | rfl | rfl <;> simp [isBad]
  unfold process_events
  rw [processFrom_append_ok [.sample sn ts tp] p initState hok]
  rw [show (processFrom (processFrom initState p).2.1 [.sample sn ts tp]) =
    ([], (processFrom initState p).2.1,
      some "Please verify input. Weather sample missing required fields.") from by
    simp [processFrom, step_bad _ hb _, errMsgOf]]
  simp [process_events]

/-- Claim C10, witnessed on a concrete run. -/
theorem C10_failed_sample_no_mutation_witness :
    process_events ([.sample (some "A") (some 1) (some 5)] ++
        [.sample none (some 2) (some 3)]) =
      ((process_events [.sample (some "A") (some 1) (some 5)]).1,
       (process_events [.sample (some "A") (some 1) (some 5)]).2.1,
       some "Please verify input. Weather sample missing required fields.") :=
  C10_failed_sample_no_mutation [.sample (some "A") (some 1) (some 5)]
    none (some 2) (some 3) rfl (Or.inl rfl)

lemma combineTs_some (l : ℤ) (ts : List ℤ) :
    combineTs (some l) ts = some (ts.foldl max l) := by
  induction ts generalizing l with
  | nil => rfl
  | cons t rest ih =>
    show combineTs (if t > l then some t else some l) rest = some ((t :: rest).foldl max l)
    have hmax : (if t > l then some t else some l) = some (max l t) := by
      split_ifs with hh
      · rw [max_eq_right hh.le]
      · rw [max_eq_left (not_lt.mp hh)]
    rw [hmax, List.foldl_cons, ih]

lemma combineTs_none (ts : List ℤ) : combineTs none ts = listMax ts := by
  cases ts with
  | nil => rfl
  | cons t rest =>
    show combineTs (some t) rest = listMax (t :: rest)
    rw [combineTs_some]
    rfl

/-- After an error-free run, the cursor is the fold of all sample
timestamps over the starting cursor. -/
lemma latest_after (events : List InputEvent) :
    ∀ s : AggState, (processFrom s events).2.2 = none →
      (processFrom s events).2.1.latest_timestamp =
        combineTs s.latest_timestamp (sampleTs events) := by
  induction events with
  | nil => intro s _; rfl
  | cons e rest ih =>
    intro s h
    cases hstep : step s e with
    | error m => simp [processFrom, hstep] at h
    | ok p =>
      obtain ⟨s1, out⟩ := p
      simp only [processFrom, hstep] at h ⊢
      rw [ih s1 h]
      cases e with
      | sample sn ts t =>
        cases sn with
        | none => simp [step] at hstep
        | some sn0 =>
          cases ts with
          | none => simp [step] at hstep
          | some ts0 =>
            cases t with
            | none => simp [step] at hstep
            | some t0 =>
              rw [show step s (.sample (some sn0) (some ts0) (some t0)) =
                .ok (⟨upsert s.weather_data sn0
                    ⟨updHigh ((lookupStation s.weather_data sn0).getD ⟨none, none⟩).high t0,
                     updLow ((lookupStation s.weather_data sn0).getD ⟨none, none⟩).low t0⟩,
                  match s.latest_timestamp with
                  | none => some ts0
                  | some lt => if ts0 > lt then some ts0 else some lt⟩, none) from rfl] at hstep
              rw [Except.ok.injEq, Prod.mk.injEq] at hstep
              obtain ⟨hs1, _⟩ := hstep
              subst hs1
              rfl
      | control c =>
        by_cases h1 : c = some "snapshot"
        · subst h1
          obtain ⟨out0, hout⟩ := step_snapshot_eq s
          rw [hout, Except.ok.injEq, Prod.mk.injEq] at hstep
          obtain ⟨hs1, _⟩ := hstep
          subst hs1
          rfl
        · by_cases h2 : c = some "reset"
          · subst h2
            obtain ⟨wd, lt⟩ := s
            cases lt with
            | none =>
              simp [step] at hstep
              obtain ⟨hs1, -⟩ := hstep
              subst hs1
              rfl
            | some lt0 =>
              simp [step] at hstep
              obtain ⟨hs1, -⟩ := hstep
              subst hs1
              rfl
          · rw [step_bad (.control c) (by simp [isBad, h1, h2]) s] at hstep
            exact Except.noConfusion hstep
      | unknown => simp [step] at hstep

/-- Whatever output a step emits carries the state's current cursor. -/
lemma step_out_asOf (s : AggState) (e : InputEvent) (s1 : AggState) (o : OutputEvent)
    (h : step s e = .ok (s1, some o)) : s.latest_timestamp = some (asOfOf o) := by
  obtain ⟨wd, lt⟩ := s
  cases e with
  | sample sn ts t =>
    cases sn <;> cases ts <;> cases t <;> simp [step] at h
  | control c =>
    by_cases h1 : c = some "snapshot"
    · subst h1
      cases lt with
      | none => simp [step] at h
      | some lt0 =>
        cases wd with
        | nil => simp [step] at h
        | cons a l =>
          cases hs : snapStations (a :: l) with
          | nil => simp [step, hs] at h
          | cons x xs =>
            simp [step, hs] at h
            obtain ⟨_, ho⟩ := h
            rw [← ho]
            rfl
    · by_cases h2 : c = some "reset"
      · subst h2
        cases lt with
        | none => simp [step, h1] at h
        | some lt0 =>
          simp [step, h1] at h
          obtain ⟨_, ho⟩ := h
          rw [← ho]
          rfl
      · simp [step, h1, h2] at h
  | unknown => simp [step] at h

/-- The cursor never decreases across a successful step. -/
lemma step_latest_mono (s : AggState) (e : InputEvent) (s1 : AggState)
    (out : Option OutputEvent) (t : Int) (hstep : step s e = .ok (s1, out))
    (h : s.latest_timestamp = some t) :
    ∃ u, s1.latest_timestamp = some u ∧ t ≤ u := by
  obtain ⟨wd, lt⟩ := s
  cases h
  cases e with
  | sample sn ts tp =>
    cases sn with
    | none => simp [step] at hstep
    | some sn0 =>
      cases ts with
      | none => simp [step] at hstep
      | some ts0 =>
        cases tp with
        | none => simp [step] at hstep
        | some tp0 =>
          simp only [step] at hstep
          rw [Except.ok.injEq, Prod.mk.injEq] at hstep
          obtain ⟨hs1, _⟩ := hstep
          subst hs1
          show ∃ u, (if ts0 > t then some ts0 else some t) = some u ∧ t ≤ u
          split_ifs with hh
          · exact ⟨ts0, rfl, hh.le⟩
          · exact ⟨t, rfl, le_refl t⟩
  | control c =>
    by_cases h1 : c = some "snapshot"
    · subst h1
      obtain ⟨out0, hout⟩ := step_snapshot_eq ⟨wd, some t⟩
      rw [hout, Except.ok.injEq, Prod.mk.injEq] at hstep
      obtain ⟨hs1, _⟩ := hstep
      subst hs1
      exact ⟨t, rfl, le_refl t⟩
    · by_cases h2 : c = some "reset"
      · subst h2
        simp [step] at hstep
        obtain ⟨hs1, -⟩ := hstep
        subst hs1
        exact ⟨t, rfl, le_refl t⟩
      · rw [step_bad (.control c) (by simp [isBad, h1, h2]) _] at hstep
        exact Except.noConfusion hstep
  | unknown => simp [step] at hstep

/-- Claim C2: the `asOf` of every emitted Snapshot or Reset is the maximum
timestamp among the samples processed so far (arrival order is
irrelevant), the cursor itself always equals that maximum, and the cursor
is monotonically non-decreasing. -/
theorem C2_asOf_is_max_timestamp :
    (∀ (p : List InputEvent) (e : InputEvent) (s1 : AggState) (o : OutputEvent),
        errOf p = none → step (stateAfter p) e = .ok (s1, some o) →
        some (asOfOf o) = listMax (sampleTs p))
    ∧ (∀ p : List InputEvent, errOf p = none →
        (stateAfter p).latest_timestamp = listMax (sampleTs p))
    ∧ (∀ (s s1 : AggState) (e : InputEvent) (out : Option OutputEvent) (t : Int),
        step s e = .ok (s1, out) → s.latest_timestamp = some t →
        ∃ u, s1.latest_timestamp = some u ∧ t ≤ u) := by
  have hlat : ∀ p : List InputEvent, errOf p = none →
      (stateAfter p).latest_timestamp = listMax (sampleTs p) := by
    intro p hp
    have h2 := latest_after p initState hp
    rw [show initState.latest_timestamp = none from rfl, combineTs_none] at h2
    exact h2
  refine ⟨?_, hlat, ?_⟩
  · intro p e s1 o hp hstep
    rw [← hlat p hp]
    exact (step_out_asOf _ e s1 o hstep).symm
  · intro s s1 e out t hstep ht
    exact step_latest_mono s e s1 out t hstep ht

/-- Claim C2, witnessed on the spec's out-of-order example
(t=100 then t=50 then t=200, then a snapshot: asOf is 200). -/
theorem C2_asOf_is_max_timestamp_witness :
    (some (asOfOf (OutputEvent.snapshot 200 [("A", 7, 5)])) =
      listMax (sampleTs [.sample (some "A") (some 100) (some 5),
        .sample (some "A") (some 50) (some 6),
        .sample (some "A") (some 200) (some 7)]))
    ∧ ((stateAfter [.sample (some "A") (some 100) (some 5),
        .sample (some "A") (some 50) (some 6),
        .sample (some "A") (some 200) (some 7)]).latest_timestamp =
      listMax (sampleTs [.sample (some "A") (some 100) (some 5),
        .sample (some "A") (some 50) (some 6),
        .sample (some "A") (some 200) (some 7)]))
    ∧ (∃ u, (AggState.mk [("A", ⟨some 5, some 5⟩)] (some 200)).latest_timestamp = some u
        ∧ (100 : Int) ≤ u) :=
  ⟨C2_asOf_is_max_timestamp.1 [.sample (some "A") (some 100) (some 5),
      .sample (some "A") (some 50) (some 6),
      .sample (some "A") (some 200) (some 7)]
      (.control (some "snapshot")) ⟨[("A", ⟨some 7, some 5⟩)], some 200⟩
      (OutputEvent.snapshot 200 [("A", 7, 5)]) rfl rfl,
   C2_asOf_is_max_timestamp.2.1 [.sample (some "A") (some 100) (some 5),
      .sample (some "A") (some 50) (some 6),
      .sample (some "A") (some 200) (some 7)] rfl,
   C2_asOf_is_max_timestamp.2.2 ⟨[], some 100⟩ ⟨[("A", ⟨some 5, some 5⟩)], some 200⟩
      (.sample (some "A") (some 200) (some 5)) none 100 rfl rfl⟩

lemma lookup_upsert (wd : List (String × StationData)) (k n : String) (d : StationData) :
    lookupStation (upsert wd k d) n = if k = n then some d else lookupStation wd n := by
  induction wd with
  | nil =>
    show lookupStation [(k, d)] n = if k = n then some d else none
    simp [lookupStation]
  | cons p rest ih =>
    obtain ⟨k0, d0⟩ := p
    by_cases hk : k0 = k
    · subst hk
      simp only [upsert, if_pos rfl]
      by_cases hn : k0 = n <;> simp [lookupStation, hn]
    · simp only [upsert, if_neg hk]
      by_cases hn : k0 = n
      · subst hn
        have hk2 : ¬k = k0 := fun hq => hk hq.symm
        simp [lookupStation, hk2]
      · simp [lookupStation, hn, ih]

/-- Per-station view of a run of valid samples: the final entry for `n` is
obtained by replaying onto the initial entry exactly the temperatures
submitted for `n`, in order. -/
lemma C1aux (events : List InputEvent) (hall : ∀ e ∈ events, isValidSample e = true) :
    ∀ (s : AggState) (n : String),
      lookupStation (processFrom s events).2.1.weather_data n =
        applyTemps (lookupStation s.weather_data n) (tempsFor events n) := by
  induction events with
  | nil => intro s n; rfl
  | cons e rest ih =>
    intro s n
    have he := hall e (List.mem_cons_self e rest)
    cases e with
    | sample sn ts t =>
      cases sn with
      | none => simp [isValidSample] at he
      | some sn0 =>
        cases ts with
        | none => simp [isValidSample] at he
        | some ts0 =>
          cases t with
          | none => simp [isValidSample] at he
          | some t0 =>
            have hrest : ∀ e0 ∈ rest, isValidSample e0 = true :=
              fun e0 h0 => hall e0 (List.mem_cons_of_mem _ h0)
            have hred : processFrom s (InputEvent.sample (some sn0) (some ts0) (some t0) :: rest) =
                processFrom ⟨upsert s.weather_data sn0
                    ⟨updHigh ((lookupStation s.weather_data sn0).getD ⟨none, none⟩).high t0,
                     updLow ((lookupStation s.weather_data sn0).getD ⟨none, none⟩).low t0⟩,
                  match s.latest_timestamp with
                  | none => some ts0
                  | some lt => if ts0 > lt then some ts0 else some lt⟩ rest := rfl
            rw [hred, ih hrest _ n, lookup_upsert]
            by_cases hn : sn0 = n
            · subst hn
              have ht : tempsFor (InputEvent.sample (some sn0) (some ts0) (some t0) :: rest) sn0 =
                  t0 :: tempsFor rest sn0 := by
                simp [tempsFor, List.filterMap_cons]
              rw [ht, if_pos rfl]
              rfl
            · have ht : tempsFor (InputEvent.sample (some sn0) (some ts0) (some t0) :: rest) n =
                  tempsFor rest n := by
                simp [tempsFor, List.filterMap_cons, hn]
              rw [ht, if_neg hn]
    | control c => simp [isValidSample] at he
    | unknown => simp [isValidSample] at he

lemma applyTemps_some (ts : List ℚ) : ∀ h l : ℚ,
    applyTemps (some ⟨some h, some l⟩) ts =
      some ⟨some (ts.foldl max h), some (ts.foldl min l)⟩ := by
  induction ts with
  | nil => intro h l; rfl
  | cons t rest ih =>
    intro h l
    show applyTemps (some ⟨updHigh (some h) t, updLow (some l) t⟩) rest = _
    rw [updHigh_some, updLow_some, ih, List.foldl_cons, List.foldl_cons]

lemma applyTemps_none (ts : List ℚ) (h : ts ≠ []) :
    applyTemps none ts = some ⟨listMax ts, listMin ts⟩ := by
  cases ts with
  | nil => exact absurd rfl h
  | cons t rest =>
    show applyTemps (some ⟨updHigh none t, updLow none t⟩) rest = _
    rw [show updHigh none t = some t from rfl, show updLow none t = some t from rfl,
      applyTemps_some]
    rfl

/-- Claim C1: after any sequence of valid samples, each station that got at
least one sample records exactly the maximum of its submitted temperatures
as `high` and the minimum as `low`, independently of arrival order. -/
theorem C1_high_low_are_extrema (events : List InputEvent)
    (hall : ∀ e ∈ events, isValidSample e = true) (n : String)
    (hne : tempsFor events n ≠ []) :
    ∃ d, lookupStation (stateAfter events).weather_data n = some d
      ∧ d.high = listMax (tempsFor events n) ∧ d.low = listMin (tempsFor events n) := by
  have h1 := C1aux events hall initState n
  rw [show lookupStation initState.weather_data n = none from rfl,
    applyTemps_none _ hne] at h1
  exact ⟨⟨listMax (tempsFor events n), listMin (tempsFor events n)⟩, h1, rfl, rfl⟩

/-- Claim C1, witnessed on a concrete out-of-order run. -/
theorem C1_high_low_are_extrema_witness :
    ∃ d, lookupStation (stateAfter [.sample (some "A") (some 1) (some 5),
        .sample (some "A") (some 2) (some 3),
        .sample (some "B") (some 2) (some 10)]).weather_data "A" = some d
      ∧ d.high = listMax (tempsFor [.sample (some "A") (some 1) (some 5),
          .sample (some "A") (some 2) (some 3),
          .sample (some "B") (some 2) (some 10)] "A")
      ∧ d.low = listMin (tempsFor [.sample (some "A") (some 1) (some 5),
          .sample (some "A") (some 2) (some 3),
          .sample (some "B") (some 2) (some 10)] "A") :=
  C1_high_low_are_extrema [.sample (some "A") (some 1) (some 5),
    .sample (some "A") (some 2) (some 3),
    .sample (some "B") (some 2) (some 10)] (by decide) "A" (by decide)

/-- Explicit form of a successful sample step. -/
lemma step_sample_eq (s : AggState) (sn : String) (ts : Int) (t : ℚ) :
    step s (.sample (some sn) (some ts) (some t)) =
      .ok (⟨upsert s.weather_data sn
          ⟨updHigh ((lookupStation s.weather_data sn).getD ⟨none, none⟩).high t,
           updLow ((lookupStation s.weather_data sn).getD ⟨none, none⟩).low t⟩,
        match s.latest_timestamp with
        | none => some ts
        | some lt => if ts > lt then some ts else some lt⟩, none) := rfl

lemma lookup_mem (wd : List (String × StationData)) (n : String) (d : StationData)
    (h : lookupStation wd n = some d) : (n, d) ∈ wd := by
  induction wd with
  | nil => simp [lookupStation] at h
  | cons p rest ih =>
    obtain ⟨k0, d0⟩ := p
    by_cases hk : k0 = n
    · subst hk
      simp [lookupStation] at h
      subst h
      exact List.mem_cons_self _ _
    · simp [lookupStation, hk] at h
      exact List.mem_cons_of_mem _ (ih h)

lemma mem_lookup_isSome (wd : List (String × StationData)) (n : String) (d : StationData)
    (h : (n, d) ∈ wd) : ∃ d1, lookupStation wd n = some d1 := by
  induction wd with
  | nil => cases h
  | cons p rest ih =>
    obtain ⟨k0, d0⟩ := p
    by_cases hk : k0 = n
    · exact ⟨d0, by simp [lookupStation, hk]⟩
    · rcases List.mem_cons.mp h with heq | hmem
      · rw [Prod.mk.injEq] at heq
        exact absurd heq.1.symm hk
      · obtain ⟨d1, hd1⟩ := ih hmem
        exact ⟨d1, by simp [lookupStation, hk, hd1]⟩

lemma mem_upsert (wd : List (String × StationData)) (k : String) (d : StationData)
    (p : String × StationData) (h : p ∈ upsert wd k d) : p = (k, d) ∨ p ∈ wd := by
  induction wd with
  | nil =>
    simp [upsert] at h
    exact Or.inl h
  | cons q rest ih =>
    obtain ⟨k0, d0⟩ := q
    by_cases hk : k0 = k
    · subst hk
      simp only [upsert, if_pos rfl] at h
      rcases List.mem_cons.mp h with rfl | hmem
      · exact Or.inl rfl
      · exact Or.inr (List.mem_cons_of_mem _ hmem)
    · simp only [upsert, if_neg hk] at h
      rcases List.mem_cons.mp h with rfl | hmem
      · exact Or.inr (List.mem_cons_self _ _)
      · rcases ih hmem with rfl | hmem2
        · exact Or.inl rfl
        · exact Or.inr (List.mem_cons_of_mem _ hmem2)

/-- Updating an entry (fresh or already initialized) always yields an
initialized entry with `low ≤ high`. -/
lemma upd_entry_inv (old : Option StationData) (t : ℚ)
    (hold : ∀ d0, old = some d0 → ∃ h l, d0.high = some h ∧ d0.low = some l ∧ l ≤ h) :
    ∃ h l, updHigh (old.getD ⟨none, none⟩).high t = some h
      ∧ updLow (old.getD ⟨none, none⟩).low t = some l ∧ l ≤ h := by
  cases old with
  | none => exact ⟨t, t, rfl, rfl, le_refl t⟩
  | some d0 =>
    obtain ⟨h0, l0, hh, hl0, hle⟩ := hold d0 rfl
    refine ⟨max h0 t, min l0 t, ?_, ?_, ?_⟩
    · show updHigh d0.high t = _
      rw [hh, updHigh_some]
    · show updLow d0.low t = _
      rw [hl0, updLow_some]
    · exact le_trans (min_le_left l0 t) (le_trans hle (le_max_left h0 t))

lemma step_wdInv (s : AggState) (e : InputEvent) (s1 : AggState) (out : Option OutputEvent)
    (hstep : step s e = .ok (s1, out)) (hinv : wdInv s.weather_data) :
    wdInv s1.weather_data := by
  cases e with
  | sample sn ts t =>
    cases sn with
    | none => simp [step] at hstep
    | some sn0 =>
      cases ts with
      | none => simp [step] at hstep
      | some ts0 =>
        cases t with
        | none => simp [step] at hstep
        | some t0 =>
          rw [step_sample_eq, Except.ok.injEq, Prod.mk.injEq] at hstep
          obtain ⟨hs1, -⟩ := hstep
          subst hs1
          intro p hp
          rcases mem_upsert s.weather_data sn0 _ p hp with rfl | hp0
          · exact upd_entry_inv (lookupStation s.weather_data sn0) t0
              (fun d0 hd0 => hinv (sn0, d0) (lookup_mem s.weather_data sn0 d0 hd0))
          · exact hinv p hp0
  | control c =>
    by_cases h1 : c = some "snapshot"
    · subst h1
      obtain ⟨out0, hout⟩ := step_snapshot_eq s
      rw [hout, Except.ok.injEq, Prod.mk.injEq] at hstep
      obtain ⟨hs1, -⟩ := hstep
      subst hs1
      exact hinv
    · by_cases h2 : c = some "reset"
      · subst h2
        obtain ⟨wd, lt⟩ := s
        cases lt with
        | none =>
          simp [step] at hstep
          obtain ⟨hs1, -⟩ := hstep
          subst hs1
          intro p hp
          simp at hp
        | some lt0 =>
          simp [step] at hstep
          obtain ⟨hs1, -⟩ := hstep
          subst hs1
          intro p hp
          simp at hp
      · rw [step_bad (.control c) (by simp [isBad, h1, h2]) s] at hstep
        exact Except.noConfusion hstep
  | unknown => simp [step] at hstep

lemma processFrom_wdInv (events : List InputEvent) :
    ∀ s : AggState, wdInv s.weather_data →
      wdInv (processFrom s events).2.1.weather_data := by
  induction events with
  | nil => intro s h; exact h
  | cons e rest ih =>
    intro s h
    cases hstep : step s e with
    | error m =>
      simp only [processFrom, hstep]
      exact h
    | ok p =>
      obtain ⟨s1, out⟩ := p
      simp only [processFrom, hstep]
      exact ih s1 (step_wdInv s e s1 out hstep h)

lemma snapStations_mem (wd : List (String × StationData)) (q : String × ℚ × ℚ)
    (h : q ∈ snapStations wd) : ∃ d, (q.1, d) ∈ wd := by
  unfold snapStations at h
  rw [List.mem_filterMap] at h
  obtain ⟨p, hp, hq⟩ := h
  obtain ⟨pn, pd⟩ := p
  obtain ⟨ph, pl⟩ := pd
  cases ph with
  | none => simp at hq
  | some h0 =>
    cases pl with
    | none => simp at hq
    | some l0 =>
      simp at hq
      subst hq
      exact ⟨⟨some h0, some l0⟩, hp⟩

lemma step_out_snapshot (s : AggState) (e : InputEvent) (s1 : AggState) (a : Int)
    (sts : List (String × ℚ × ℚ))
    (h : step s e = .ok (s1, some (.snapshot a sts))) :
    sts = snapStations s.weather_data ∧ s1 = s := by
  obtain ⟨wd, lt⟩ := s
  cases e with
  | sample sn ts t =>
    cases sn <;> cases ts <;> cases t <;> simp [step] at h
  | control c =>
    by_cases h1 : c = some "snapshot"
    · subst h1
      cases lt with
      | none => simp [step] at h
      | some lt0 =>
        cases wd with
        | nil => simp [step] at h
        | cons p l =>
          cases hs : snapStations (p :: l) with
          | nil => simp [step, hs] at h
          | cons x xs =>
            simp [step, hs] at h
            obtain ⟨hstate, -, hsts⟩ := h
            subst hsts
            exact ⟨rfl, hstate.symm⟩
    · by_cases h2 : c = some "reset"
      · subst h2
        cases lt <;> simp [step, h1] at h
      · simp [step, h1, h2] at h
  | unknown => simp [step] at h

lemma step_keys (s : AggState) (e : InputEvent) (s1 : AggState) (out : Option OutputEvent)
    (n : String) (hstep : step s e = .ok (s1, out))
    (h : ∃ d, lookupStation s1.weather_data n = some d) :
    (∃ d, lookupStation s.weather_data n = some d)
    ∨ ∃ ts t, e = InputEvent.sample (some n) ts t := by
  cases e with
  | sample sn ts t =>
    cases sn with
    | none => simp [step] at hstep
    | some sn0 =>
      cases ts with
      | none => simp [step] at hstep
      | some ts0 =>
        cases t with
        | none => simp [step] at hstep
        | some t0 =>
          rw [step_sample_eq, Except.ok.injEq, Prod.mk.injEq] at hstep
          obtain ⟨hs1, -⟩ := hstep
          subst hs1
          obtain ⟨d, hd⟩ := h
          rw [lookup_upsert] at hd
          by_cases hn : sn0 = n
          · exact Or.inr ⟨some ts0, some t0, by rw [hn]⟩
          · rw [if_neg hn] at hd
            exact Or.inl ⟨d, hd⟩
  | control c =>
    by_cases h1 : c = some "snapshot"
    · subst h1
      obtain ⟨out0, hout⟩ := step_snapshot_eq s
      rw [hout, Except.ok.injEq, Prod.mk.injEq] at hstep
      obtain ⟨hs1, -⟩ := hstep
      subst hs1
      exact Or.inl h
    · by_cases h2 : c = some "reset"
      · subst h2
        obtain ⟨wd, lt⟩ := s
        cases lt with
        | none =>
          simp [step] at hstep
          obtain ⟨hs1, -⟩ := hstep
          subst hs1
          obtain ⟨d, hd⟩ := h
          simp [lookupStation] at hd
        | some lt0 =>
          simp [step] at hstep
          obtain ⟨hs1, -⟩ := hstep
          subst hs1
          obtain ⟨d, hd⟩ := h
          simp [lookupStation] at hd
      · rw [step_bad (.control c) (by simp [isBad, h1, h2]) s] at hstep
        exact Except.noConfusion hstep
  | unknown => simp [step] at hstep

/-- Every station in an emitted snapshot either was already in the map at
the start of the run or got a sample during the run. -/
lemma processFrom_snapshot_origin (events : List InputEvent) :
    ∀ (s : AggState) (a : Int) (sts : List (String × ℚ × ℚ)) (q : String × ℚ × ℚ),
      OutputEvent.snapshot a sts ∈ (processFrom s events).1 → q ∈ sts →
      (∃ d, lookupStation s.weather_data q.1 = some d)
      ∨ ∃ ts t, InputEvent.sample (some q.1) ts t ∈ events := by
  induction events with
  | nil =>
    intro s a sts q h _
    simp [processFrom] at h
  | cons e rest ih =>
    intro s a sts q hmem hq
    cases hstep : step s e with
    | error m => simp [processFrom, hstep] at hmem
    | ok p =>
      obtain ⟨s1, out⟩ := p
      simp only [processFrom, hstep, List.mem_append] at hmem
      rcases hmem with hmem | hmem
      · cases out with
        | none => simp [Option.toList] at hmem
        | some o =>
          simp [Option.toList] at hmem
          subst hmem
          obtain ⟨hsts, hs1⟩ := step_out_snapshot s e s1 a sts hstep
          subst hsts
          obtain ⟨d, hd⟩ := snapStations_mem s.weather_data q hq
          exact Or.inl (mem_lookup_isSome s.weather_data q.1 d hd)
      · rcases ih s1 a sts q hmem hq with hlook | ⟨ts, t, hmem2⟩
        · rcases step_keys s e s1 out q.1 hstep hlook with hl | ⟨ts, t, rfl⟩
          · exact Or.inl hl
          · exact Or.inr ⟨ts, t, List.mem_cons_self _ _⟩
        · exact Or.inr ⟨ts, t, List.mem_cons_of_mem _ hmem2⟩

/-- Claim C4: in every reachable state, any station entry that was ever
fed a sample has both extrema set with `high ≥ low`; and every station
appearing in an emitted snapshot got at least one sample in the input —
a station with zero samples never appears in any output. -/
theorem C4_extrema_invariant (events : List InputEvent) :
    wdInv (stateAfter events).weather_data
    ∧ ∀ (a : Int) (sts : List (String × ℚ × ℚ)) (q : String × ℚ × ℚ),
        OutputEvent.snapshot a sts ∈ outputsOf events → q ∈ sts →
        ∃ ts t, InputEvent.sample (some q.1) ts t ∈ events := by
  constructor
  · exact processFrom_wdInv events initState (fun p hp => absurd hp (List.not_mem_nil p))
  · intro a sts q hmem hq
    rcases processFrom_snapshot_origin events initState a sts q hmem hq with ⟨d, hd⟩ | h
    · simp [initState, lookupStation] at hd
    · exact h

/-- Claim C4, witnessed on a concrete run. -/
theorem C4_extrema_invariant_witness :
    (∃ h l, (StationData.mk (some 5) (some 5)).high = some h
      ∧ (StationData.mk (some 5) (some 5)).low = some l ∧ l ≤ h)
    ∧ ∃ ts t, InputEvent.sample (some "A") ts t ∈
        [InputEvent.sample (some "A") (some 1) (some 5),
         InputEvent.control (some "snapshot")] :=
  ⟨(C4_extrema_invariant [.sample (some "A") (some 1) (some 5),
      .control (some "snapshot")]).1 ("A", ⟨some 5, some 5⟩) (by decide),
   (C4_extrema_invariant [.sample (some "A") (some 1) (some 5),
      .control (some "snapshot")]).2 1 [("A", 5, 5)] ("A", 5, 5)
      (by decide) (by decide)⟩

end Weather

section Examples
open Weather

example : process_events [.sample (some "Foster") (some 1000) (some 37),
    .control (some "snapshot")] =
    ([.snapshot 1000 [("Foster", 37, 37)]],
     ⟨[("Foster", ⟨some 37, some 37⟩)], some 1000⟩, none) := by decide

example : process_events [.sample (some "Foster") (some 1000) (some 37),
    .control (some "reset"), .control (some "snapshot")] =
    ([.reset 1000], ⟨[], some 1000⟩, none) := by decide

example : process_events [.control (some "snapshot")] = ([], ⟨[], none⟩, none) := by decide

example : process_events [.sample (some "A") (some 100) (some 5),
    .sample (some "A") (some 50) (some 6),
    .sample (some "A") (some 200) (some 7),
    .control (some "snapshot")] =
    ([.snapshot 200 [("A", 7, 5)]],
     ⟨[("A", ⟨some 7, some 5⟩)], some 200⟩, none) := by decide

example : process_events [.sample (some "A") (some 100) (some 5), .unknown,
    .control (some "snapshot")] =
    ([], ⟨[("A", ⟨some 5, some 5⟩)], some 100⟩,
     some "Please verify input. Unknown message type.") := by decide

end Examples
